import Mathlib

/-!
Verification development for the Mannequin repository
(`scripts/process_mannequins.py`, `scripts/add_to_orgs.py`,
`scripts/add_to_repos.py`).

The shallow embedding below follows the active (uncommented) code of
`scripts/process_mannequins.py`, which is the deduplicated core the other
two scripts are near-duplicate revisions of.  Python strings are modelled
as `List Char`, times (`time.time()`) as integers, and HTTP traffic as an
oracle mapping each URL to the sequence of per-attempt network outcomes.
-/

set_option autoImplicit false

/-- Response object: the fields of a `requests` response actually consumed
by the scripts.  `body` models `response.text`; `reset` models the parsed
`X-RateLimit-Reset` header (`none` when absent); `items` models the list
of ids under `response.json()['items']` for the search endpoint; `userId`
models `response.json()['id']` for the user-lookup endpoint. -/
structure Resp where
  status : Nat
  body : List Char
  reset : Option Int
  items : List Int
  userId : Int
deriving DecidableEq, Repr

/-- Outcome of one underlying `requests.get/post/put` call: either the
library raises a `requests.RequestException` at network level, or a
response object comes back. -/
inductive Attempt where
  | netError
  | resp (r : Resp)
deriving DecidableEq, Repr

/-- How one call to `make_request` ends: a returned response, a propagated
`requests.RequestException`, or falling off the end of the attempt loop
(Python then implicitly returns `None`). -/
inductive ReqResult where
  | ok (r : Resp)
  | raised
  | noneFell
deriving DecidableEq, Repr

/-- Observable trace of a `make_request` call: its result, the sleeps it
performed (seconds, in order), and the number of loop iterations that
issued a network attempt. -/
structure RunResult where
  result : ReqResult
  sleeps : List Int
  attempts : Nat
deriving DecidableEq, Repr

/-- Decidable model of Python's substring test `needle in hay`: the
needle occurs contiguously somewhere in the haystack. -/
def containsSeq (needle : List Char) : List Char → Bool
  | [] => needle.isEmpty
  | c :: t => needle.isPrefixOf (c :: t) || containsSeq needle t

/-- Test `'rate limit' in response.text.lower()` from the source. -/
def rateLimitBody (body : List Char) : Bool :=
  containsSeq ("rate limit".toList) (body.map Char.toLower)

/-- Loop body of `make_request` (`process_mannequins.py` lines 225-248),
written as recursion on the number of remaining loop iterations: calling
it with `rem` remaining iterations at loop index `attempt` corresponds to
the Python `for attempt in range(max_retries)` loop where
`rem = max_retries - attempt`, so the source guard
`attempt == max_retries - 1` is `rem = 1`, here the `rem = r + 1, r = 0`
case.  `out` gives the network outcome of each attempt, `times` the value
of `time.time()` at its k-th call (it is called once per rate-limited
response), `tIdx` counts those calls, and `sleeps` accumulates the
`time.sleep` durations. -/
def makeRequestGo (out : Nat → Attempt) (times : Nat → Int) :
    Nat → Nat → Nat → List Int → RunResult
  | 0, attempt, _, sleeps => ⟨.noneFell, sleeps, attempt⟩
  | rem + 1, attempt, tIdx, sleeps =>
    match out attempt with
    | .netError =>
      if rem = 0 then ⟨.raised, sleeps, attempt + 1⟩
      else makeRequestGo out times rem (attempt + 1) tIdx (sleeps ++ [(2 : Int) ^ attempt])
    | .resp r =>
      if r.status = 403 ∧ rateLimitBody r.body = true then
        makeRequestGo out times rem (attempt + 1) (tIdx + 1)
          (sleeps ++ [max ((r.reset.getD 0) - times tIdx) 0 + 1])
      else if 400 ≤ r.status ∧ r.status < 600 then
        if rem = 0 then ⟨.raised, sleeps, attempt + 1⟩
        else makeRequestGo out times rem (attempt + 1) tIdx (sleeps ++ [(2 : Int) ^ attempt])
      else ⟨.ok r, sleeps, attempt + 1⟩

/-- Model of `make_request(url, method, data, max_retries)`: run the
attempt loop from index 0.  A 403 response whose body mentions the rate
limit sleeps `max(reset - now, 0) + 1` seconds and moves to the next loop
iteration (`continue`); any other 4xx/5xx status makes
`response.raise_for_status()` raise an `HTTPError`, which the
`except requests.RequestException` clause turns into a `2^attempt`-second
backoff sleep, or a re-raise on the final iteration, exactly as a
network-level error does. -/
def makeRequest (out : Nat → Attempt) (times : Nat → Int) (maxRetries : Nat) : RunResult :=
  makeRequestGo out times maxRetries 0 0 []

/-- Network oracle for a whole run: for each URL, the sequence of
per-attempt outcomes the destination produces, and the value of
`time.time()` at each rate-limit computation during the call to that
URL. -/
structure Net where
  outcomes : List Char → Nat → Attempt
  times : List Char → Nat → Int

/-- One `make_request(url)` call with the source's default
`max_retries=3`, routed through the oracle. -/
def makeRequestAt (net : Net) (url : List Char) : RunResult :=
  makeRequest (net.outcomes url) (net.times url) 3

/-- Module constant `GITHUB_API_URL`. -/
def GITHUB_API_URL : List Char := "https://api.github.com".toList

/-- URL built by `get_user_id` for the email branch:
`f"{GITHUB_API_URL}/search/users?q={identifier}"`. -/
def searchUrl (identifier : List Char) : List Char :=
  GITHUB_API_URL ++ "/search/users?q=".toList ++ identifier

/-- URL built by `get_user_id` for the username branch:
`f"{GITHUB_API_URL}/users/{identifier}"`. -/
def usersUrl (identifier : List Char) : List Char :=
  GITHUB_API_URL ++ "/users/".toList ++ identifier

/-- Python `identifier.split('@')[0]`: the part before the first `'@'`
(the whole string when no `'@'` occurs). -/
def localPart (identifier : List Char) : List Char :=
  identifier.takeWhile (fun c => c != '@')

/-- How a call to `get_user_id` ends: `found i` models `return <id>`,
`noneRet` models `return None` (the `except requests.RequestException`
clauses), `attrErr` models an uncaught `AttributeError` escaping the
function (raised by `response.json()` when `make_request` returned
`None`, since `AttributeError` is not a `requests.RequestException`),
and `diverged` is the fuel-exhaustion marker of the embedding, proved
unreachable at fuel 2. -/
inductive Resolve where
  | found (i : Int)
  | noneRet
  | attrErr
  | diverged
deriving DecidableEq, Repr

/-- Model of `get_user_id(identifier)` (`process_mannequins.py` lines
250-271), with explicit recursion fuel.  The email branch queries the
search endpoint; on zero items it recurses on `identifier.split('@')[0]`;
the username branch queries the direct lookup endpoint and returns
`response.json()['id']`. -/
def getUserIdF (net : Net) : Nat → List Char → Resolve
  | 0, _ => .diverged
  | fuel + 1, identifier =>
    if identifier.contains '@' then
      match (makeRequestAt net (searchUrl identifier)).result with
      | .ok r =>
        match r.items with
        | u :: _ => .found u
        | [] => getUserIdF net fuel (localPart identifier)
      | .raised => .noneRet
      | .noneFell => .attrErr
    else
      match (makeRequestAt net (usersUrl identifier)).result with
      | .ok r => .found r.userId
      | .raised => .noneRet
      | .noneFell => .attrErr

/-- `get_user_id` at fuel 2, which suffices for every identifier (the
fallback argument never contains `'@'`, so at most one recursive call
happens). -/
def getUserId (net : Net) (identifier : List Char) : Resolve :=
  getUserIdF net 2 identifier

/-- Role mapping dictionary returned by `get_github_roles()` in
`process_mannequins.py` (lines 199-207), as an association list; its
keys are distinct, so `find?`-lookup agrees with Python dict lookup. -/
def get_github_roles : List (List Char × List Char) :=
  [("Admin".toList, "admin".toList),
   ("Member".toList, "member".toList),
   ("Owner".toList, "owner".toList),
   ("Read".toList, "pull".toList),
   ("Write".toList, "push".toList),
   ("Contributor".toList, "pull".toList)]

/-- Model of `determine_role(mannequin_role)`: dictionary lookup with
default `'pull'` (`role_mapping.get(mannequin_role, 'pull')`). -/
def determine_role (mannequin_role : List Char) : List Char :=
  match get_github_roles.find? (fun kv => kv.1 == mannequin_role) with
  | some kv => kv.2
  | none => "pull".toList

/-- Python exceptions that can escape the modelled functions. -/
inductive PyExc where
  | valueError
  | attributeError
  | fileNotFoundError
  | fuelExhausted
deriving DecidableEq, Repr

/-- Model of `validate_input(identifier, target, role)`: `ValueError`
when any field is empty (Python falsy) or the role is not a key of the
role mapping. -/
def validate_input (identifier target role : List Char) : Except PyExc Unit :=
  if identifier.isEmpty || target.isEmpty || role.isEmpty then
    .error .valueError
  else if !((get_github_roles.map Prod.fst).contains role) then
    .error .valueError
  else
    .ok ()

/-- HTTP method of an issued request. -/
inductive Method where
  | get
  | post
  | put
deriving DecidableEq, Repr

/-- JSON payload of an issued request, as built by `add_user_to_target`. -/
inductive Payload where
  | permission (p : List Char)
  | invitation (inviteeId : Int) (role : List Char)
deriving DecidableEq, Repr

/-- One request issued by `add_user_to_target` through `make_request`. -/
structure Sent where
  method : Method
  url : List Char
  data : Payload
deriving DecidableEq, Repr

/-- Hexadecimal digit used by the percent-encoder. -/
def hexDigit (n : Nat) : Char :=
  ("0123456789ABCDEF".toList).getD n '0'

/-- Model of `requests.utils.quote` (default `safe='/'`) on one ASCII
character: unreserved characters and `'/'` pass through, anything else is
percent-encoded. -/
def pyQuoteChar (c : Char) : List Char :=
  if c.isAlphanum || c == '_' || c == '.' || c == '-' || c == '~' || c == '/' then [c]
  else ['%', hexDigit (c.toNat / 16 % 16), hexDigit (c.toNat % 16)]

/-- Model of `requests.utils.quote(identifier)`. -/
def pyQuote (s : List Char) : List Char :=
  s.flatMap pyQuoteChar

/-- How a call to `add_user_to_target` ends: a normal return carrying the
request it issued through `make_request` (if any), or an escaping
exception. -/
inductive TargetResult where
  | ret (sent : Option Sent)
  | exc (e : PyExc)
deriving DecidableEq, Repr

/-- Model of `add_user_to_target(identifier, target, role)`
(`process_mannequins.py` lines 273-296).  A `None` from `get_user_id`
logs and returns without any call.  A target containing `'/'` is
unpacked by `owner, repo_name = target.split('/')` — a `ValueError`
escapes unless the split has exactly two parts — and produces a PUT to
the repo-collaborators endpoint; otherwise a POST to the org-invitations
endpoint with role collapsed to `admin`/`member`.  The final
`make_request` call's own exception is caught (`except
requests.RequestException`), so the function returns normally either
way; its response is only logged. -/
def addUserToTarget (net : Net) (identifier target role : List Char) : TargetResult :=
  match getUserId net identifier with
  | .diverged => .exc .fuelExhausted
  | .attrErr => .exc .attributeError
  | .noneRet => .ret none
  | .found userId =>
    if target.contains '/' then
      match target.splitOn '/' with
      | [owner, repoName] =>
        .ret (some
          { method := .put
            url := GITHUB_API_URL ++ "/repos/".toList ++ owner ++ "/".toList ++ repoName
              ++ "/collaborators/".toList ++ pyQuote identifier
            data := .permission (role.map Char.toLower) })
      | _ => .exc .valueError
    else
      .ret (some
        { method := .post
          url := GITHUB_API_URL ++ "/orgs/".toList ++ target ++ "/invitations".toList
          data := .invitation userId
            (if role.map Char.toLower == "admin".toList then "admin".toList
             else "member".toList) })

/-- One CSV data row as `csv.DictReader` hands it to the loop body of
`process_mannequins`, under the validated header. -/
structure Row where
  mannequin_username : List Char
  mannequin_id : List Char
  role : List Char
  target : List Char
deriving DecidableEq, Repr

/-- Outcome of one iteration of the `process_mannequins` loop:
`processed` (the `try` body ran to completion, carrying the request it
issued, if any), `invalidInput` (the `except ValueError` handler logged
and continued), or `unexpectedError` (the `except Exception` handler
logged and continued). -/
inductive RecordOutcome where
  | processed (sent : Option Sent)
  | invalidInput
  | unexpectedError
deriving DecidableEq, Repr

/-- Whether a record ran its whole `try` body. -/
def RecordOutcome.isOk : RecordOutcome → Bool
  | .processed _ => true
  | _ => false

/-- Body of one loop iteration of `process_mannequins` with its two
`except` clauses: `validate_input`, then `determine_role`, then
`add_user_to_target`; a `ValueError` from anywhere in the `try` block is
caught by the first handler, every other exception by the second, and in
all cases the loop continues. -/
def processRow (net : Net) (row : Row) : RecordOutcome :=
  match validate_input row.mannequin_id row.target row.role with
  | .error _ => .invalidInput
  | .ok _ =>
    match addUserToTarget net row.mannequin_id row.target (determine_role row.role) with
    | .ret s => .processed s
    | .exc .valueError => .invalidInput
    | .exc _ => .unexpectedError

/-- Model of the row loop of `process_mannequins(csv_file)`
(`process_mannequins.py` lines 311-324): rows are handled one at a time
in input order, each through `processRow`. -/
def process_mannequins (net : Net) : List Row → List RecordOutcome
  | [] => []
  | row :: rest => processRow net row :: process_mannequins net rest

/-- Header required by `validate_csv`:
`['mannequin_username', 'mannequin_id', 'role', 'target']`. -/
def expectedHeader : List (List Char) :=
  ["mannequin_username".toList, "mannequin_id".toList, "role".toList, "target".toList]

/-- Model of `validate_csv(csv_file)` (`process_mannequins.py` lines
298-306).  The file is `none` when it does not exist
(`FileNotFoundError`); otherwise its rows are lists of cells and
`header = next(csv_reader, None)` is the first row; any mismatch with
the expected header list raises `ValueError`. -/
def validate_csv (file : Option (List (List (List Char)))) : Except PyExc Unit :=
  match file with
  | none => .error .fileNotFoundError
  | some rows =>
    if rows.head? = some expectedHeader then .ok () else .error .valueError

/-- Cell extraction under the validated header: `csv.DictReader` binds
the four expected field names positionally; a short row leaves the
missing fields `None`, which the validation treats exactly like the
empty string (both are falsy), so missing cells are modelled as `[]`. -/
def toRow (cells : List (List Char)) : Row :=
  ⟨cells.getD 0 [], cells.getD 1 [], cells.getD 2 [], cells.getD 3 []⟩

/-- `process_mannequins` reading the whole file through `csv.DictReader`:
the first row is consumed as field names, every later row becomes a
record.  This models the call as it happens in `main`, after
`validate_csv` has pinned the header. -/
def process_mannequins_file (net : Net) (rows : List (List (List Char))) :
    List RecordOutcome :=
  process_mannequins net ((rows.drop 1).map toRow)

/-- Final state of a run of `main()`: the process exit status and the
per-record outcomes of the batch. -/
structure MainResult where
  exitCode : Nat
  outcomes : List RecordOutcome
deriving DecidableEq, Repr

/-- Model of `main()` (`process_mannequins.py` lines 326-332):
`validate_csv` then `process_mannequins`, with `FileNotFoundError` and
`ValueError` mapped to `sys.exit(1)`; completion of the batch exits 0. -/
def mainRun (net : Net) (file : Option (List (List (List Char)))) : MainResult :=
  match validate_csv file, file with
  | .error _, _ => ⟨1, []⟩
  | .ok _, none => ⟨1, []⟩
  | .ok _, some rows => ⟨0, process_mannequins_file net rows⟩

/-- Condition of the rate-limit branch of `make_request`, lifted to one
attempt outcome: a response with status 403 whose body mentions the rate
limit. -/
abbrev rateLimited : Attempt → Prop := fun a =>
  match a with
  | .netError => False
  | .resp r => r.status = 403 ∧ rateLimitBody r.body = true

/-- Attempt outcomes on which the loop body of `make_request` ends up in
the `except requests.RequestException` handler: a network-level error, or
a 4xx/5xx response that is not rate-limited (so that
`response.raise_for_status()` raises). -/
abbrev raisesThrough : Attempt → Prop := fun a =>
  match a with
  | .netError => True
  | .resp r => (400 ≤ r.status ∧ r.status < 600) ∧
      ¬(r.status = 403 ∧ rateLimitBody r.body = true)

/-- Value of `int(response.headers.get('X-RateLimit-Reset', 0))` for an
attempt outcome. -/
def resetOf : Attempt → Int
  | .netError => 0
  | .resp r => r.reset.getD 0

/-- Rate-limited 403 response used in concrete runs: reset epoch 10,
body mentioning the rate limit. -/
def rlResp : Attempt :=
  .resp ⟨403, "API rate limit exceeded for 127.0.0.1".toList, some 10, [], 0⟩

/-- Attempt outcomes that are rate-limited on the three loop iterations
`make_request` can run and would succeed on a hypothetical fourth. -/
def out1 : Nat → Attempt := fun k =>
  if k < 3 then rlResp else .resp ⟨200, [], none, [], 1⟩

/-- Clock for the concrete runs: `time.time()` always reads 4, so each
rate-limited attempt sleeps `max(10 - 4, 0) + 1 = 7` seconds. -/
def times1 : Nat → Int := fun _ => 4

/-- Oracle whose every attempt at every URL is a rate-limited 403. -/
def net9 : Net := ⟨fun _ _ => rlResp, fun _ _ => 0⟩

/-- Plain 404 response (body does not mention the rate limit). -/
def resp404 : Resp := ⟨404, "Not Found".toList, none, [], 0⟩

/-- Oracle whose every attempt at every URL is a 404: the looked-up
account does not exist. -/
def net8 : Net := ⟨fun _ _ => .resp resp404, fun _ _ => 0⟩

/-- Oracle for the email round trip: the search for
`alice@example.com` succeeds with zero items, and every other URL (in
particular the fallback `/users/alice` lookup) succeeds with id 42. -/
def net7 : Net :=
  ⟨fun url _ =>
    if url == searchUrl ("alice@example.com".toList) then .resp ⟨200, [], none, [], 0⟩
    else .resp ⟨200, [], none, [], 42⟩,
   fun _ _ => 0⟩

/-- Oracle on which every request succeeds and user lookups resolve to
id 7. -/
def netFound : Net := ⟨fun _ _ => .resp ⟨200, [], none, [], 7⟩, fun _ _ => 0⟩

/-- Request that `add_user_to_target` issues for identifier `octocat`,
target `octo/hello` and role `push` once the user has resolved. -/
def sent3 : Sent :=
  ⟨.put, GITHUB_API_URL ++ "/repos/octo/hello/collaborators/octocat".toList,
   .permission ("push".toList)⟩

/-- Oracle whose every attempt is a network-level error. -/
def anyNet : Net := ⟨fun _ _ => .netError, fun _ _ => 0⟩

/-- Mixed demonstration batch: records 1 and 3 are valid, record 2 has an
empty role. -/
def demoRows : List Row :=
  [⟨"mona".toList, "mona".toList, "Read".toList, "octo-org".toList⟩,
   ⟨"kim".toList, "kim".toList, [], "octo-org".toList⟩,
   ⟨"lee".toList, "lee".toList, "Write".toList, "octo-org".toList⟩]

/-- Oracle on which every request of the demonstration batch succeeds. -/
def demoNet : Net := ⟨fun _ _ => .resp ⟨200, [], none, [], 5⟩, fun _ _ => 0⟩

theorem range_map_shift (f : Nat → Int) (a n : Nat) :
    (List.range (n + 1)).map (fun j => f (a + j)) =
      f a :: (List.range n).map (fun j => f (a + 1 + j)) := by
  rw [List.range_succ_eq_map, List.map_cons, List.map_map]
  refine congrArg₂ List.cons (by simp) ?_
  refine List.map_congr_left ?_
  intro j _
  show f (a + (j + 1)) = f (a + 1 + j)
  congr 1
  omega

theorem go_allRL (out : Nat → Attempt) (times : Nat → Int) :
    ∀ (rem attempt : Nat) (acc : List Int),
      (∀ k, attempt ≤ k → k < attempt + rem → rateLimited (out k)) →
      makeRequestGo out times rem attempt attempt acc =
        ⟨.noneFell,
         acc ++ (List.range rem).map
           (fun j => max (resetOf (out (attempt + j)) - times (attempt + j)) 0 + 1),
         attempt + rem⟩ := by
  intro rem
  induction rem with
  | zero => intro attempt acc _; simp [makeRequestGo]
  | succ r ih =>
    intro attempt acc h
    have ha : rateLimited (out attempt) := h attempt (Nat.le_refl _) (by omega)
    cases hout : out attempt with
    | netError => rw [hout] at ha; exact absurd ha (by simp [rateLimited])
    | resp rr =>
      rw [hout] at ha
      simp only [makeRequestGo, hout]
      rw [if_pos ha]
      rw [ih (attempt + 1) _ (fun k hk1 hk2 => h k (by omega) (by omega))]
      rw [range_map_shift (fun k => max (resetOf (out k) - times k) 0 + 1) attempt r]
      refine congrArg₂ (fun s a => RunResult.mk .noneFell s a) ?_ (by omega)
      rw [List.append_assoc]
      refine congrArg (acc ++ ·) ?_
      rw [List.singleton_append]
      refine congrArg₂ List.cons ?_ rfl
      rw [hout]
      rfl

theorem go_step (out : Nat → Attempt) (times : Nat → Int)
    (rem attempt tIdx : Nat) (acc : List Int) :
    makeRequestGo out times (rem + 1) attempt tIdx acc =
      match out attempt with
      | .netError =>
        if rem = 0 then ⟨.raised, acc, attempt + 1⟩
        else makeRequestGo out times rem (attempt + 1) tIdx (acc ++ [(2 : Int) ^ attempt])
      | .resp r =>
        if r.status = 403 ∧ rateLimitBody r.body = true then
          makeRequestGo out times rem (attempt + 1) (tIdx + 1)
            (acc ++ [max ((r.reset.getD 0) - times tIdx) 0 + 1])
        else if 400 ≤ r.status ∧ r.status < 600 then
          if rem = 0 then ⟨.raised, acc, attempt + 1⟩
          else makeRequestGo out times rem (attempt + 1) tIdx (acc ++ [(2 : Int) ^ attempt])
        else ⟨.ok r, acc, attempt + 1⟩ := rfl

theorem go_raise (out : Nat → Attempt) (times : Nat → Int) :
    ∀ (rem : Nat), 1 ≤ rem → ∀ (attempt tIdx : Nat) (acc : List Int),
      (∀ k, attempt ≤ k → k < attempt + rem → raisesThrough (out k)) →
      makeRequestGo out times rem attempt tIdx acc =
        ⟨.raised,
         acc ++ (List.range (rem - 1)).map (fun j => (2 : Int) ^ (attempt + j)),
         attempt + rem⟩ := by
  intro rem
  induction rem with
  | zero => intro h; omega
  | succ r ih =>
    intro _ attempt tIdx acc h
    have ha : raisesThrough (out attempt) := h attempt (Nat.le_refl _) (by omega)
    cases r with
    | zero =>
      cases hout : out attempt with
      | netError => rw [go_step, hout]; simp
      | resp rr =>
        rw [hout] at ha
        obtain ⟨hin, hnot⟩ := ha
        rw [go_step, hout]
        show (if rr.status = 403 ∧ rateLimitBody rr.body = true then _ else _) = _
        rw [if_neg hnot, if_pos hin]
        simp
    | succ rp =>
      have hrec :
          makeRequestGo out times (rp + 1) (attempt + 1) tIdx
              (acc ++ [(2 : Int) ^ attempt]) =
            ⟨.raised,
             (acc ++ [(2 : Int) ^ attempt]) ++
               (List.range rp).map (fun j => (2 : Int) ^ (attempt + 1 + j)),
             attempt + 1 + (rp + 1)⟩ := by
        have := ih (by omega) (attempt + 1) tIdx (acc ++ [(2 : Int) ^ attempt])
          (fun k hk1 hk2 => h k (by omega) (by omega))
        simpa using this
      have hlist :
          (acc ++ [(2 : Int) ^ attempt]) ++
              (List.range rp).map (fun j => (2 : Int) ^ (attempt + 1 + j)) =
            acc ++ (List.range (rp + 1)).map (fun j => (2 : Int) ^ (attempt + j)) := by
        rw [range_map_shift (fun k => (2 : Int) ^ k) attempt rp]
        rw [List.append_assoc, List.singleton_append]
      cases hout : out attempt with
      | netError =>
        rw [go_step, hout]
        show (if rp + 1 = 0 then _ else _) = _
        rw [if_neg (by omega : ¬ rp + 1 = 0)]
        rw [hrec, hlist]
        refine congrArg₂ (fun s a => RunResult.mk .raised s a) rfl (by omega)
      | resp rr =>
        rw [hout] at ha
        obtain ⟨hin, hnot⟩ := ha
        rw [go_step, hout]
        show (if rr.status = 403 ∧ rateLimitBody rr.body = true then _ else _) = _
        rw [if_neg hnot, if_pos hin]
        rw [if_neg (by omega : ¬ rp + 1 = 0)]
        rw [hrec, hlist]
        refine congrArg₂ (fun s a => RunResult.mk .raised s a) rfl (by omega)

theorem getUserIdF_step (net : Net) (fuel : Nat) (identifier : List Char) :
    getUserIdF net (fuel + 1) identifier =
      if identifier.contains '@' then
        match (makeRequestAt net (searchUrl identifier)).result with
        | .ok r =>
          match r.items with
          | u :: _ => .found u
          | [] => getUserIdF net fuel (localPart identifier)
        | .raised => .noneRet
        | .noneFell => .attrErr
      else
        match (makeRequestAt net (usersUrl identifier)).result with
        | .ok r => .found r.userId
        | .raised => .noneRet
        | .noneFell => .attrErr := rfl

theorem localPart_no_at (identifier : List Char) :
    (localPart identifier).contains '@' = false := by
  have h : '@' ∉ List.takeWhile (fun c => c != '@') identifier := by
    intro hmem
    have hp := List.mem_takeWhile_imp hmem
    simp at hp
  simpa [localPart] using h

theorem fuelSucc_no_diverge (net : Net) (fuel : Nat) (identifier : List Char)
    (h : identifier.contains '@' = false) :
    getUserIdF net (fuel + 1) identifier ≠ .diverged := by
  rw [getUserIdF_step, h]
  simp only [Bool.false_eq_true, if_false]
  split <;> simp

theorem process_mannequins_eq_map (net : Net) (rows : List Row) :
    process_mannequins net rows = rows.map (processRow net) := by
  induction rows with
  | nil => rfl
  | cons r t ih => simp [process_mannequins, ih]

/-- C1 counterexample: the claim says a rate-limited 403 is retried
without consuming a retry count, indefinitely, until the window passes.
On the run `out1`, whose attempts 0, 1 and 2 are rate-limited 403
responses and whose attempt 3 would be a plain 200 success,
`make_request` (with the default `max_retries = 3`) performs exactly 3
attempts, sleeping `max(10 - 4, 0) + 1 = 7` seconds each time, and then
falls off the loop returning `None`: the rate-limited iterations consumed
all three retry counts and the success available at attempt 3 is never
reached, so the retry is neither free nor indefinite. -/
theorem rateLimit_retry_bounded_counterexample :
    makeRequest out1 times1 3 = ⟨.noneFell, [7, 7, 7], 3⟩ ∧
    out1 3 = .resp ⟨200, [], none, [], 1⟩ := by
  constructor
  · rfl
  · rfl

/-- C1 (amended): on an HTTP 403 response whose body indicates a rate
limit, the client sleeps exactly `max(resetEpoch - now, 0) + 1` seconds
(`resetEpoch` from the `X-RateLimit-Reset` header, defaulting to 0) and
then proceeds to the next loop iteration, consuming a retry count; when
every one of the `max_retries` loop iterations observes a rate-limited
response, the loop ends after exactly `max_retries` attempts and the
function returns `None`. -/
theorem rateLimit_sleep_formula_consumes_attempt (out : Nat → Attempt)
    (times : Nat → Int) (mr : Nat) (h : ∀ k, k < mr → rateLimited (out k)) :
    makeRequest out times mr =
      ⟨.noneFell,
       (List.range mr).map (fun k => max (resetOf (out k) - times k) 0 + 1),
       mr⟩ := by
  have hgo := go_allRL out times mr 0 [] (fun k _ hk2 => h k (by omega))
  simpa using hgo

/-- Witness for C1 (amended): three rate-limited attempts with reset
epoch 10 against a clock reading 4 sleep 7 seconds each, and the call
returns `None` after exactly 3 attempts. -/
theorem rateLimit_sleep_formula_consumes_attempt_witness :
    makeRequest (fun _ => rlResp) times1 3 = ⟨.noneFell, [7, 7, 7], 3⟩ := by
  rw [rateLimit_sleep_formula_consumes_attempt (fun _ => rlResp) times1 3
    (fun k _ => ⟨rfl, by decide⟩)]
  decide

/-- C2: when the destination fails with a network-level error on every
attempt, `make_request` raises the error after exactly `max_retries`
attempts, and the delay between consecutive attempts `k` and `k + 1` is
`2 ^ k` seconds (the doubling backoff pattern); no sleep follows the
final, re-raising attempt. -/
theorem netError_raises_after_max_retries_with_backoff (out : Nat → Attempt)
    (times : Nat → Int) (mr : Nat) (h1 : 1 ≤ mr)
    (h2 : ∀ k, k < mr → out k = .netError) :
    makeRequest out times mr =
      ⟨.raised, (List.range (mr - 1)).map (fun k => (2 : Int) ^ k), mr⟩ := by
  have hgo := go_raise out times mr h1 0 0 []
    (fun k _ hk2 => by rw [h2 k (by omega)]; trivial)
  simpa using hgo

/-- Witness for C2: with the default `max_retries = 3` and every attempt
a network error, the call raises after 3 attempts with backoff sleeps of
1 and 2 seconds between consecutive attempts. -/
theorem netError_raises_after_max_retries_with_backoff_witness :
    makeRequest (fun _ => .netError) (fun _ => 0) 3 = ⟨.raised, [1, 2], 3⟩ := by
  rw [netError_raises_after_max_retries_with_backoff (fun _ => .netError)
    (fun _ => 0) 3 (by omega) (fun _ _ => rfl)]
  decide

/-- C9: when every one of the `max_retries` loop iterations observes an
HTTP 403 response whose body indicates a rate limit, `make_request`
falls off the end of its attempt loop after exactly 3 attempts and
returns `None` (neither a response nor a raise); `get_user_id` then
calls `.json()` on that `None`, which raises an `AttributeError` that
the `except requests.RequestException` clause does not catch, and at the
record level this lands in the generic `except Exception` handler
(`unexpectedError`), not in the `ValueError` one — an error outside the
requests exception hierarchy. -/
theorem all_rate_limited_returns_none_attr_error :
    (makeRequestAt net9 (usersUrl ("octocat".toList))).result = .noneFell ∧
    (makeRequestAt net9 (usersUrl ("octocat".toList))).attempts = 3 ∧
    getUserId net9 ("octocat".toList) = .attrErr ∧
    processRow net9 ⟨"mona".toList, "octocat".toList, "Read".toList, "octo-org".toList⟩
      = .unexpectedError := by
  refine ⟨rfl, rfl, rfl, rfl⟩

/-- C3: whenever `add_user_to_target` issues a request, its endpoint is a
pure function of whether the target contains `'/'`: a slash-containing
target produces a PUT to
`/repos/{owner}/{repo}/collaborators/{identifier}` (owner and repo being
the two parts of `target.split('/')`), and a slash-free target produces
a POST to `/orgs/{org}/invitations`. -/
theorem routing_by_slash (net : Net) (identifier target role : List Char) (sent : Sent)
    (h : addUserToTarget net identifier target role = .ret (some sent)) :
    (target.contains '/' = true →
      sent.method = .put ∧
      sent.url = GITHUB_API_URL ++ "/repos/".toList ++ (target.splitOn '/').getD 0 []
        ++ "/".toList ++ (target.splitOn '/').getD 1 []
        ++ "/collaborators/".toList ++ pyQuote identifier) ∧
    (target.contains '/' = false →
      sent.method = .post ∧
      sent.url = GITHUB_API_URL ++ "/orgs/".toList ++ target ++ "/invitations".toList) := by
  unfold addUserToTarget at h
  cases hres : getUserId net identifier with
  | diverged => rw [hres] at h; exact absurd h (by simp)
  | attrErr => rw [hres] at h; exact absurd h (by simp)
  | noneRet => rw [hres] at h; exact absurd h (by simp)
  | found uid =>
    rw [hres] at h
    cases hsl : target.contains '/' with
    | true =>
      rw [hsl] at h
      simp only [if_true] at h
      cases hspl : target.splitOn '/' with
      | nil => rw [hspl] at h; exact absurd h (by simp)
      | cons a l1 =>
        cases l1 with
        | nil => rw [hspl] at h; exact absurd h (by simp)
        | cons b l2 =>
          cases l2 with
          | nil =>
            rw [hspl] at h
            simp only [TargetResult.ret.injEq, Option.some.injEq] at h
            constructor
            · intro _
              rw [← h]
              exact ⟨rfl, rfl⟩
            · intro hc
              exact absurd hc (by simp)
          | cons c l3 => rw [hspl] at h; exact absurd h (by simp)
    | false =>
      rw [hsl] at h
      simp only [Bool.false_eq_true, if_false] at h
      simp only [TargetResult.ret.injEq, Option.some.injEq] at h
      constructor
      · intro hc
        exact absurd hc (by simp)
      · intro _
        rw [← h]
        exact ⟨rfl, rfl⟩

/-- Witness for C3: on an all-succeeding oracle, identifier `octocat`
with target `octo/hello` is routed to the PUT repo-collaborator
endpoint. -/
theorem routing_by_slash_witness :
    sent3.method = .put ∧
    sent3.url = GITHUB_API_URL ++ "/repos/".toList
      ++ (("octo/hello".toList).splitOn '/').getD 0 []
      ++ "/".toList ++ (("octo/hello".toList).splitOn '/').getD 1 []
      ++ "/collaborators/".toList ++ pyQuote ("octocat".toList) :=
  (routing_by_slash netFound ("octocat".toList) ("octo/hello".toList)
    ("push".toList) sent3 (by decide)).1 (by decide)

/-- C4: per-record isolation in `process_mannequins`: the batch produces
exactly one outcome per input record, the outcome of record `i` is the
(caught) result of processing record `i` alone, and on the concrete
mixed batch whose second record has an empty role the other two records
are still processed. -/
theorem per_record_isolation (net : Net) (rows : List Row) :
    (process_mannequins net rows).length = rows.length ∧
    (∀ i : Nat, (process_mannequins net rows)[i]? = (rows[i]?).map (processRow net)) ∧
    (process_mannequins demoNet demoRows).map RecordOutcome.isOk = [true, false, true] := by
  refine ⟨?_, ?_, by rfl⟩
  · rw [process_mannequins_eq_map]
    exact List.length_map rows (processRow net)
  · intro i
    rw [process_mannequins_eq_map]
    exact List.getElem?_map (processRow net) rows i

/-- C5: when the header row of the input file differs from
`['mannequin_username', 'mannequin_id', 'role', 'target']`,
`validate_csv` raises before any record is processed and `main` exits
with status 1 having processed zero records. -/
theorem bad_header_fails_fast (net : Net) (rows : List (List (List Char)))
    (h : rows.head? ≠ some expectedHeader) :
    mainRun net (some rows) = ⟨1, []⟩ := by
  have hv : validate_csv (some rows) = .error .valueError := by
    simp [validate_csv, h]
  unfold mainRun
  rw [hv]

/-- Witness for C5: a file whose only row is a wrong header makes `main`
exit 1 with zero records processed. -/
theorem bad_header_fails_fast_witness :
    mainRun anyNet (some [["wrong_header".toList]]) = ⟨1, []⟩ :=
  bad_header_fails_fast anyNet [["wrong_header".toList]] (by decide)

/-- C6: the role mapper is a deterministic total function: each of the
six recognized labels maps to its fixed destination permission, and
every label outside the mapping's key set maps to the default `'pull'`
without error. -/
theorem determine_role_total_mapping :
    determine_role ("Admin".toList) = "admin".toList ∧
    determine_role ("Member".toList) = "member".toList ∧
    determine_role ("Owner".toList) = "owner".toList ∧
    determine_role ("Read".toList) = "pull".toList ∧
    determine_role ("Write".toList) = "push".toList ∧
    determine_role ("Contributor".toList) = "pull".toList ∧
    ∀ s : List Char, s ∉ get_github_roles.map Prod.fst →
      determine_role s = "pull".toList := by
  refine ⟨rfl, rfl, rfl, rfl, rfl, rfl, ?_⟩
  intro s hs
  unfold determine_role
  have hnone : get_github_roles.find? (fun kv => kv.1 == s) = none := by
    rw [List.find?_eq_none]
    intro kv hkv
    intro hbeq
    exact hs (List.mem_map.mpr ⟨kv, hkv, by rw [eq_of_beq hbeq]⟩)
  rw [hnone]

/-- Witness for C6: the unrecognized label `Maintainer` maps to the
default permission `pull`. -/
theorem determine_role_total_mapping_witness :
    determine_role ("Maintainer".toList) = "pull".toList :=
  determine_role_total_mapping.2.2.2.2.2.2 ("Maintainer".toList) (by decide)

/-- C7: for an identifier containing `'@'`, resolution queries the
user-search endpoint first; when the search succeeds with zero results,
`get_user_id` falls back to the part of the email before the first `'@'`
as a username, and when that direct lookup succeeds it returns that
numeric user id. -/
theorem email_fallback_roundtrip (net : Net) (identifier : List Char)
    (r1 r2 : Resp) (n : Int)
    (hAt : identifier.contains '@' = true)
    (hs : (makeRequestAt net (searchUrl identifier)).result = .ok r1)
    (hitems : r1.items = [])
    (hu : (makeRequestAt net (usersUrl (localPart identifier))).result = .ok r2)
    (hid : r2.userId = n) :
    getUserId net identifier = .found n := by
  show getUserIdF net (1 + 1) identifier = .found n
  rw [getUserIdF_step, hAt]
  simp only [if_true]
  rw [hs]
  simp only []
  rw [hitems]
  show getUserIdF net (0 + 1) (localPart identifier) = .found n
  rw [getUserIdF_step, localPart_no_at identifier]
  simp only [Bool.false_eq_true, if_false]
  rw [hu]
  show Resolve.found r2.userId = Resolve.found n
  rw [hid]

/-- Witness for C7: searching for `alice@example.com` returns zero
items, the fallback lookup of `alice` succeeds with id 42, and
resolution returns 42. -/
theorem email_fallback_roundtrip_witness :
    getUserId net7 ("alice@example.com".toList) = .found 42 :=
  email_fallback_roundtrip net7 ("alice@example.com".toList)
    ⟨200, [], none, [], 0⟩ ⟨200, [], none, [], 42⟩ 42
    (by decide) (by decide) rfl (by decide) rfl

/-- C8 counterexample: the claim says that for an identifier with no
matching account the resolver fails with a `NotFoundError` rather than
returning a value.  On an oracle that answers 404 to every attempt,
`get_user_id('ghost')` raises nothing: the underlying `HTTPError` is
caught by its `except requests.RequestException` clause and the function
returns the value `None`, which the caller `add_user_to_target` then
checks for, logging and returning without raising — no `NotFoundError`
(or any exception) is involved anywhere in the code. -/
theorem resolver_returns_none_counterexample :
    getUserId net8 ("ghost".toList) = .noneRet ∧
    addUserToTarget net8 ("ghost".toList) ("octo-org".toList) ("pull".toList)
      = .ret none := by
  exact ⟨rfl, rfl⟩

/-- C8 (amended): for every identifier for which no matching account
exists — every direct username lookup the resolver can make for it
yields a non-rate-limited HTTP error such as 404 (or a network error)
on every attempt, and, when the identifier is an email, the search
either fails the same way or succeeds with zero items — `get_user_id`
returns `None` instead of raising; the caller detects the `None` and
skips the record. -/
theorem resolver_returns_none_on_missing_account (net : Net)
    (identifier : List Char)
    (husers : ∀ k, k < 3 → raisesThrough (net.outcomes (usersUrl identifier) k))
    (hlocal : ∀ k, k < 3 → raisesThrough (net.outcomes (usersUrl (localPart identifier)) k))
    (hsearch : (∀ k, k < 3 → raisesThrough (net.outcomes (searchUrl identifier) k)) ∨
      (∃ r : Resp, (makeRequestAt net (searchUrl identifier)).result = .ok r ∧
        r.items = [])) :
    getUserId net identifier = .noneRet := by
  have hraise : ∀ url : List Char,
      (∀ k, k < 3 → raisesThrough (net.outcomes url k)) →
      (makeRequestAt net url).result = .raised := by
    intro url hfail
    show (makeRequest (net.outcomes url) (net.times url) 3).result = .raised
    unfold makeRequest
    rw [go_raise (net.outcomes url) (net.times url) 3 (by omega) 0 0 []
      (fun k _ hk2 => hfail k (by omega))]
  cases hAt : identifier.contains '@' with
  | false =>
    show getUserIdF net (1 + 1) identifier = .noneRet
    rw [getUserIdF_step, hAt]
    simp only [Bool.false_eq_true, if_false]
    rw [hraise (usersUrl identifier) husers]
  | true =>
    show getUserIdF net (1 + 1) identifier = .noneRet
    rw [getUserIdF_step, hAt]
    simp only [if_true]
    cases hsearch with
    | inl hfail => rw [hraise (searchUrl identifier) hfail]
    | inr hok =>
      obtain ⟨r, hok, hempty⟩ := hok
      rw [hok]
      simp only []
      rw [hempty]
      show getUserIdF net (0 + 1) (localPart identifier) = .noneRet
      rw [getUserIdF_step, localPart_no_at identifier]
      simp only [Bool.false_eq_true, if_false]
      rw [hraise (usersUrl (localPart identifier)) hlocal]

/-- Witness for C8 (amended): on the all-404 oracle, both the username
identifier `ghost` and the email identifier `ghost@example.com` (whose
search raises, like every other request) resolve to `None`. -/
theorem resolver_returns_none_on_missing_account_witness :
    getUserId net8 ("ghost".toList) = .noneRet ∧
    getUserId net8 ("ghost@example.com".toList) = .noneRet :=
  ⟨resolver_returns_none_on_missing_account net8 ("ghost".toList)
    (fun k _ => ⟨⟨by decide, by decide⟩, by decide⟩)
    (fun k _ => ⟨⟨by decide, by decide⟩, by decide⟩)
    (Or.inl (fun k _ => ⟨⟨by decide, by decide⟩, by decide⟩)),
   resolver_returns_none_on_missing_account net8 ("ghost@example.com".toList)
    (fun k _ => ⟨⟨by decide, by decide⟩, by decide⟩)
    (fun k _ => ⟨⟨by decide, by decide⟩, by decide⟩)
    (Or.inl (fun k _ => ⟨⟨by decide, by decide⟩, by decide⟩))⟩

/-- C10: identity resolution terminates on every identifier: the
fallback argument `identifier.split('@')[0]` never itself contains
`'@'`, so the recursion makes at most one recursive call and recursion
depth 2 suffices (the fuel-2 embedding never exhausts its fuel). -/
theorem resolution_terminates_depth2 (net : Net) (identifier : List Char) :
    (localPart identifier).contains '@' = false ∧
    getUserIdF net 2 identifier ≠ .diverged := by
  refine ⟨localPart_no_at identifier, ?_⟩
  cases hAt : identifier.contains '@' with
  | false => exact fuelSucc_no_diverge net 1 identifier hAt
  | true =>
    show getUserIdF net (1 + 1) identifier ≠ .diverged
    rw [getUserIdF_step, hAt]
    simp only [if_true]
    split
    · split
      · simp
      · exact fuelSucc_no_diverge net 0 (localPart identifier)
          (localPart_no_at identifier)
    · simp
    · simp
